import Mathlib

/-!
Verification of the detect-collisions collision system.

Shallow embedding of the collision-detection library: shape primitives
(Circle from `src/source/modules/Circle.js`, Polygon and Point modelled from
the spec since their modules are not in the repository), the bounding-volume
tree broad phase (modelled from the spec, `BVH.js` is not in the repository),
the separating-axis narrow phase (modelled from the spec, `SAT.js` is not in
the repository) and the `Collisions` facade (`src/unnamed/part_000`).

Numbers are rationals; the real-valued quantities produced by the narrow
phase (distances, normalized overlap depths, unit normals) live in `ℝ`.
-/

namespace DetectCollisions

/-- Axis-aligned bounding box `{minX, minY, maxX, maxY}` (spec §3). -/
structure AABB where
  minX : ℚ
  minY : ℚ
  maxX : ℚ
  maxY : ℚ
deriving DecidableEq, Repr

/-- Modelled from the spec: box intersection used by the broad phase
("descend into any child whose box intersects the query box", §4.2); two
boxes intersect when they share at least one point. -/
def AABB.intersects (a b : AABB) : Bool :=
  a.minX ≤ b.maxX && b.minX ≤ a.maxX && a.minY ≤ b.maxY && b.minY ≤ a.maxY

/-- `outer` contains the whole of `inner`. -/
def AABB.containsBox (outer inner : AABB) : Bool :=
  outer.minX ≤ inner.minX && inner.maxX ≤ outer.maxX &&
  outer.minY ≤ inner.minY && inner.maxY ≤ outer.maxY

/-- Minimal box covering both arguments (spec §3: an internal node's box is
the minimal union of both children's boxes). -/
def AABB.union (a b : AABB) : AABB :=
  ⟨min a.minX b.minX, min a.minY b.minY, max a.maxX b.maxX, max a.maxY b.maxY⟩

/-- Box area, used by the best-fit insertion heuristic (spec §4.2). -/
def AABB.area (a : AABB) : ℚ :=
  (a.maxX - a.minX) * (a.maxY - a.minY)

/-- Uniform inflation of a box by `d` on every side (spec glossary: padding). -/
def AABB.inflate (a : AABB) (d : ℚ) : AABB :=
  ⟨a.minX - d, a.minY - d, a.maxX + d, a.maxY + d⟩

/-- The set of points inside a box. -/
def AABB.toSet (a : AABB) : Set (ℚ × ℚ) :=
  {p | a.minX ≤ p.1 ∧ p.1 ≤ a.maxX ∧ a.minY ≤ p.2 ∧ p.2 ≤ a.maxY}

/-- A circle body: fields from `src/source/modules/Circle.js` (`id`, `x`,
`y`, `padding` via the `Body` superclass, plus `radius` and `scale`). -/
structure Circle where
  id : ℤ
  x : ℚ
  y : ℚ
  radius : ℚ
  scale : ℚ
  padding : ℚ
deriving DecidableEq, Repr

/-- Modelled from the spec: `Polygon.js` is not in the repository.  Fields
per spec §3: identifier, position, local point list, rotation angle,
independent x/y scale, padding.  The rotation angle is represented by its
cosine and sine (`cosA`, `sinA`) so that the geometry stays rational. -/
structure Polygon where
  id : ℤ
  x : ℚ
  y : ℚ
  points : List (ℚ × ℚ)
  cosA : ℚ
  sinA : ℚ
  scaleX : ℚ
  scaleY : ℚ
  padding : ℚ
deriving DecidableEq, Repr

/-- Modelled from the spec: `Point.js` is not in the repository.  Fields per
spec §3: identifier, position, padding; no extent. -/
structure PointBody where
  id : ℤ
  x : ℚ
  y : ℚ
  padding : ℚ
deriving DecidableEq, Repr

/-- A body is a circle, a polygon or a point (spec §3). -/
inductive Body where
  | circle (c : Circle)
  | polygon (p : Polygon)
  | point (pt : PointBody)
deriving DecidableEq, Repr

/-- Modelled from the spec: (§4.1) world vertices = rotate, scale, translate
each local point by the current transform. -/
def Polygon.worldVertices (p : Polygon) : List (ℚ × ℚ) :=
  p.points.map (fun q =>
    let rx := q.1 * p.cosA - q.2 * p.sinA
    let ry := q.1 * p.sinA + q.2 * p.cosA
    (p.x + rx * p.scaleX, p.y + ry * p.scaleY))

/-- Consecutive vertex pairs of a closed polygon (each vertex with its
cyclic successor). -/
def cyclePairs (vs : List (ℚ × ℚ)) : List ((ℚ × ℚ) × (ℚ × ℚ)) :=
  match vs with
  | [] => []
  | v :: rest => (v :: rest).zip (rest ++ [v])

/-- Modelled from the spec: (§4.1, §4.3) edge normals are the perpendiculars
of each consecutive edge; a zero-length edge contributes no valid normal and
is skipped.  (An edge collinear with its neighbour merely duplicates a
normal, which changes none of the tests below.) -/
def Polygon.edgeNormals (p : Polygon) : List (ℚ × ℚ) :=
  (cyclePairs p.worldVertices).filterMap (fun e =>
    let dx := e.2.1 - e.1.1
    let dy := e.2.2 - e.1.2
    if dx = 0 ∧ dy = 0 then none else some (dy, -dx))

/-- Fold helper: minimum of `x` and a list. -/
def foldMin (x : ℚ) (xs : List ℚ) : ℚ := xs.foldl min x

/-- Fold helper: maximum of `x` and a list. -/
def foldMax (x : ℚ) (xs : List ℚ) : ℚ := xs.foldl max x

/-- The padding of a body (spec §3: common field). -/
def Body.paddingOf : Body → ℚ
  | .circle c => c.padding
  | .polygon p => p.padding
  | .point pt => pt.padding

/-- The box around a body's true extent, before padding is applied.
Circle: center ± radius·scale (spec §4.1); polygon: min/max over world
vertices (spec §4.1); point: its position with zero interior extent. -/
def Body.unpaddedBox : Body → AABB
  | .circle c =>
      ⟨c.x - c.radius * c.scale, c.y - c.radius * c.scale,
       c.x + c.radius * c.scale, c.y + c.radius * c.scale⟩
  | .polygon p =>
      match p.worldVertices with
      | [] => ⟨p.x, p.y, p.x, p.y⟩
      | v :: vs =>
          ⟨foldMin v.1 (vs.map Prod.fst), foldMin v.2 (vs.map Prod.snd),
           foldMax v.1 (vs.map Prod.fst), foldMax v.2 (vs.map Prod.snd)⟩
  | .point pt => ⟨pt.x, pt.y, pt.x, pt.y⟩

/-- Modelled from the spec: the padded bounding box (`Body.js`/`BVH.js`, not
in the repository, compute it).  Circle's box is center ± (radius·scale +
padding) per axis; polygon's box is the vertex min/max expanded by padding;
point's box is position ± padding (spec §4.1). -/
def Body.box (b : Body) : AABB :=
  b.unpaddedBox.inflate b.paddingOf

/-- The true geometric extent of a body: a closed disc for a circle, the
convex hull of the world vertices for a polygon, a single point for a
point. -/
def Body.extent : Body → Set (ℚ × ℚ)
  | .circle c =>
      {q | (q.1 - c.x) ^ 2 + (q.2 - c.y) ^ 2 ≤ (c.radius * c.scale) ^ 2}
  | .polygon p => convexHull ℚ {v | v ∈ p.worldVertices}
  | .point pt => {(pt.x, pt.y)}

/-- Well-formedness of construction inputs (spec §6: non-negative padding;
radius and scale non-negative so that the scaled radius is a length; a
polygon has at least 3 points, spec §3). -/
def Body.wf : Body → Bool
  | .circle c => 0 ≤ c.radius && 0 ≤ c.scale && 0 ≤ c.padding
  | .polygon p => 0 ≤ p.padding && decide (3 ≤ p.points.length)
  | .point pt => 0 ≤ pt.padding

/-! ## Spatial index (broad phase)

Modelled from the spec (§4.2): `BVH.js` is not in the repository.  A node is
either a leaf owning one body together with the box under which it was
indexed, or an internal node owning exactly two children and a box. -/

/-- Modelled from the spec: (§3) index node of the bounding-volume tree.  A
leaf stores the body and the padded box it was indexed under (`sbox`); an
internal node stores its box and exactly two children. -/
inductive BVHNode where
  | leaf (b : Body) (sbox : AABB)
  | node (nbox : AABB) (l r : BVHNode)
deriving DecidableEq, Repr

/-- The box of a node: a leaf's indexed box, or an internal node's box. -/
def BVHNode.nodeBox : BVHNode → AABB
  | .leaf _ sbox => sbox
  | .node nbox _ _ => nbox

/-- All bodies stored at the leaves of a subtree, left to right. -/
def BVHNode.bodies : BVHNode → List Body
  | .leaf b _ => [b]
  | .node _ l r => l.bodies ++ r.bodies

/-- All leaf entries (body together with its indexed box). -/
def BVHNode.leafEntries : BVHNode → List (Body × AABB)
  | .leaf b sbox => [(b, sbox)]
  | .node _ l r => l.leafEntries ++ r.leafEntries

/-- Tree invariant (spec §3, §4.2): every internal node's box bounds both
children's boxes, and every leaf's indexed box still covers its body's
current unpadded extent box (the refit criterion of `update()`). -/
def BVHNode.inv : BVHNode → Bool
  | .leaf b sbox => sbox.containsBox b.unpaddedBox
  | .node nbox l r =>
      nbox.containsBox l.nodeBox && nbox.containsBox r.nodeBox && l.inv && r.inv

/-- Area growth a box would need to include `nb` (best-fit heuristic,
spec §4.2). -/
def growth (box nb : AABB) : ℚ :=
  (box.union nb).area - box.area

/-- Modelled from the spec: (§4.2) insertion.  At a leaf, pair the existing
occupant with the new leaf under a fresh internal node whose box is their
union; at an internal node, descend into the child whose box needs the least
area growth, updating the box union on the way down. -/
def BVHNode.insertNode : BVHNode → Body → BVHNode
  | .leaf c sbox, b =>
      .node (sbox.union b.box) (.leaf c sbox) (.leaf b b.box)
  | .node nbox l r, b =>
      if growth l.nodeBox b.box ≤ growth r.nodeBox b.box then
        .node (nbox.union b.box) (l.insertNode b) r
      else
        .node (nbox.union b.box) l (r.insertNode b)

/-- Modelled from the spec: (§4.2) insert into a possibly empty tree; an
empty tree makes the new leaf the root. -/
def insertBVH (t : Option BVHNode) (b : Body) : Option BVHNode :=
  match t with
  | none => some (.leaf b b.box)
  | some n => some (n.insertNode b)

/-- Outcome reported by a removal (spec §7: removing an unindexed body
reports a "not found" condition). -/
inductive RemoveOutcome where
  | removed
  | notFound
deriving DecidableEq, Repr

/-- Modelled from the spec: (§4.2) locate the leaf holding `b`; `none` when
`b` is not indexed in this subtree, otherwise the subtree with that leaf's
parent replaced by the leaf's sibling (boxes refitted on the path), where
`some none` means the subtree was the leaf itself. -/
def BVHNode.removeNode : BVHNode → Body → Option (Option BVHNode)
  | .leaf c _, b => if c = b then some none else none
  | .node _ l r, b =>
      match l.removeNode b with
      | some none => some (some r)
      | some (some l2) => some (some (.node (l2.nodeBox.union r.nodeBox) l2 r))
      | none =>
          match r.removeNode b with
          | some none => some (some l)
          | some (some r2) => some (some (.node (l.nodeBox.union r2.nodeBox) l r2))
          | none => none

/-- Modelled from the spec: (§4.2, §7) removal.  A body not currently
indexed reports `notFound` and the tree is returned unchanged; removing the
last body clears the tree. -/
def removeBVH (t : Option BVHNode) (b : Body) : Option BVHNode × RemoveOutcome :=
  match t with
  | none => (none, .notFound)
  | some n =>
      match n.removeNode b with
      | none => (some n, .notFound)
      | some t2 => (t2, .removed)

/-- Modelled from the spec: (§4.2) the bodies whose current unpadded extent
box no longer lies within their indexed (padded) box — the reinsert
criterion of `update()`. -/
def BVHNode.stale : BVHNode → List Body
  | .leaf b sbox => if sbox.containsBox b.unpaddedBox then [] else [b]
  | .node _ l r => l.stale ++ r.stale

/-- Modelled from the spec: (§4.2) `update()` removes and reinserts every
body whose unpadded extent left its indexed box. -/
def updateBVH (t : Option BVHNode) : Option BVHNode :=
  match t with
  | none => none
  | some n => n.stale.foldl (fun acc b => insertBVH (removeBVH acc b).1 b) (some n)

/-- Bodies indexed by a possibly empty tree. -/
def bodiesOpt : Option BVHNode → List Body
  | none => []
  | some n => n.bodies

/-- Tree invariant on a possibly empty tree. -/
def invOpt : Option BVHNode → Bool
  | none => true
  | some n => n.inv

/-- Modelled from the spec: (§4.2) `potentials` traversal of one subtree —
descend into any child whose box intersects the query box, collect every
leaf body reached except the query body itself. -/
def BVHNode.collectPotentials (qbox : AABB) (qb : Body) : BVHNode → List Body
  | .leaf b _ => if b = qb then [] else [b]
  | .node _ l r =>
      (if l.nodeBox.intersects qbox then l.collectPotentials qbox qb else []) ++
      (if r.nodeBox.intersects qbox then r.collectPotentials qbox qb else [])

/-- List of potential collisions for `qb`: traversal from the root with the
query box being the body's own padded box (spec §4.2). -/
def potentialsBVH (t : Option BVHNode) (qb : Body) : List Body :=
  match t with
  | none => []
  | some n => n.collectPotentials qb.box qb

/-! ## Narrow phase (separating axis theorem)

Modelled from the spec (§4.3): `SAT.js` is not in the repository.  Dispatch
is by the unordered pair of variants; a point is treated as a circle of
radius 0.  Following the spec's own testable property "touching (zero
depth) counts as colliding" (§8), an axis separates only when the 1-D gap
is strict. -/

/-- Center and scaled radius, the circle data the narrow phase works on; a
point contributes radius 0 (spec §4.3). -/
structure CircleData where
  x : ℚ
  y : ℚ
  r : ℚ
deriving DecidableEq, Repr

/-- Narrow-phase view of a circle body: its center and scaled radius. -/
def circleData (c : Circle) : CircleData :=
  ⟨c.x, c.y, c.radius * c.scale⟩

/-- Narrow-phase view of a point body: a circle of radius 0 (spec §3). -/
def pointData (pt : PointBody) : CircleData :=
  ⟨pt.x, pt.y, 0⟩

/-- Squared distance between two circle centers. -/
def circleDistSq (a b : CircleData) : ℚ :=
  (b.x - a.x) ^ 2 + (b.y - a.y) ^ 2

/-- Modelled from the spec: (§4.3, §8) the circle-circle test on the axis
through the two centers; the shapes collide when the center distance does
not strictly exceed the radius sum (touching counts as colliding). -/
def circleCircleCollide (a b : CircleData) : Bool :=
  circleDistSq a b ≤ (a.r + b.r) ^ 2

/-- Modelled from the spec: (§4.3, §8) the reported circle-circle overlap depth,
the radius sum minus the center distance.  With coincident centers this is
the sum of the radii, as the degenerate-case policy requires. -/
noncomputable def circleCircleDepth (a b : CircleData) : ℝ :=
  ((a.r : ℝ) + (b.r : ℝ)) - Real.sqrt ((circleDistSq a b : ℚ) : ℝ)

/-- Modelled from the spec: (§4.3) the reported circle-circle overlap normal,
the unit vector from the first center toward the second; with coincident
centers the axis is undefined and a fixed arbitrary normal is reported. -/
noncomputable def circleCircleNormal (a b : CircleData) : ℝ × ℝ :=
  if circleDistSq a b = 0 then (1, 0)
  else
    (((b.x - a.x : ℚ) : ℝ) / Real.sqrt ((circleDistSq a b : ℚ) : ℝ),
     ((b.y - a.y : ℚ) : ℝ) / Real.sqrt ((circleDistSq a b : ℚ) : ℝ))

/-- Dot product of an axis with a point. -/
def dot (n v : ℚ × ℚ) : ℚ :=
  n.1 * v.1 + n.2 * v.2

/-- Squared length of an axis. -/
def normSq (n : ℚ × ℚ) : ℚ :=
  n.1 ^ 2 + n.2 ^ 2

/-- Projection range (min, max) of a vertex list onto an axis (spec §4.3:
polygon extent on an axis is the min/max of vertex·axis). -/
def polyProjRange (vs : List (ℚ × ℚ)) (n : ℚ × ℚ) : ℚ × ℚ :=
  match vs with
  | [] => (0, 0)
  | v :: rest =>
      (foldMin (dot n v) (rest.map (fun w => dot n w)),
       foldMax (dot n v) (rest.map (fun w => dot n w)))

/-- Decides `t > r·‖n‖` (with `nsq = ‖n‖²`) without square roots, for a
non-negative radius `r`: true exactly when `t` is positive and `t²`
strictly exceeds `r²·nsq`. -/
def gtRadNorm (t r nsq : ℚ) : Bool :=
  0 < t && r ^ 2 * nsq < t ^ 2

/-- Modelled from the spec: (§4.3, §8) a candidate axis strictly separates a
polygon (vertex list `vs`) from a circle when one projected extent lies
strictly beyond the other; zero overlap (touching) does not separate. -/
def circleAxisSeparates (vs : List (ℚ × ℚ)) (c : CircleData) (n : ℚ × ℚ) : Bool :=
  let pr := polyProjRange vs n
  let ctr := dot n (c.x, c.y)
  gtRadNorm (ctr - pr.2) c.r (normSq n) || gtRadNorm (pr.1 - ctr) c.r (normSq n)

/-- Modelled from the spec: (§4.3) the first vertex of the list at minimal
distance from the circle's center. -/
def nearestVertex (c : CircleData) (vs : List (ℚ × ℚ)) : Option (ℚ × ℚ) :=
  match vs with
  | [] => none
  | v :: rest =>
      some (rest.foldl
        (fun best w =>
          if (w.1 - c.x) ^ 2 + (w.2 - c.y) ^ 2 <
              (best.1 - c.x) ^ 2 + (best.2 - c.y) ^ 2 then w else best)
        v)

/-- Modelled from the spec: (§4.3) the candidate axes for a circle-polygon pair:
the polygon's edge normals plus the axis from the circle's center to the
polygon's nearest vertex; a zero-length axis (center on the vertex) is
skipped so that normalization never divides by zero. -/
def circlePolyAxes (p : Polygon) (c : CircleData) : List (ℚ × ℚ) :=
  p.edgeNormals ++
    (match nearestVertex c p.worldVertices with
     | none => []
     | some v =>
         if (v.1 - c.x, v.2 - c.y) = ((0 : ℚ), (0 : ℚ)) then []
         else [(v.1 - c.x, v.2 - c.y)])

/-- Modelled from the spec: (§4.3, §8) circle-polygon collision — no
candidate axis strictly separates the two shapes. -/
def circlePolygonCollide (p : Polygon) (c : CircleData) : Bool :=
  !((circlePolyAxes p c).any (fun n => circleAxisSeparates p.worldVertices c n))

/-- Modelled from the spec: (§4.3, §8) a candidate axis strictly separates
two polygons when their projection ranges have a strict gap. -/
def polyAxisSeparates (va vb : List (ℚ × ℚ)) (n : ℚ × ℚ) : Bool :=
  let ra := polyProjRange va n
  let rb := polyProjRange vb n
  ra.2 < rb.1 || rb.2 < ra.1

/-- Modelled from the spec: (§4.3, §8) polygon-polygon collision — no edge
normal of either polygon strictly separates the two shapes. -/
def polygonPolygonCollide (p q : Polygon) : Bool :=
  !((p.edgeNormals ++ q.edgeNormals).any
      (fun n => polyAxisSeparates p.worldVertices q.worldVertices n))

/-- Modelled from the spec: (§4.3) dispatch by the unordered variant pair;
points collapse into circles of radius 0. -/
def satCollide (a b : Body) : Bool :=
  match a, b with
  | .polygon p, .polygon q => polygonPolygonCollide p q
  | .polygon p, .circle c => circlePolygonCollide p (circleData c)
  | .polygon p, .point t => circlePolygonCollide p (pointData t)
  | .circle c, .polygon q => circlePolygonCollide q (circleData c)
  | .point t, .polygon q => circlePolygonCollide q (pointData t)
  | .circle c, .circle d => circleCircleCollide (circleData c) (circleData d)
  | .circle c, .point t => circleCircleCollide (circleData c) (pointData t)
  | .point t, .circle c => circleCircleCollide (pointData t) (circleData c)
  | .point s, .point t => circleCircleCollide (pointData s) (pointData t)

/-- Modelled from the spec: (§4.3) the full narrow-phase entry with the
optional bounding-box pre-check: when `aabb` is set and the two padded
boxes do not overlap, the expensive axis enumeration is skipped and the
test reports no collision. -/
def SATtest (a b : Body) (aabb : Bool) : Bool :=
  (!aabb || a.box.intersects b.box) && satCollide a b

/-- Normalized 1-D overlap of a polygon and a circle on one axis, in real
arithmetic (spec §4.3: project both extents onto the axis and compute the
1-D overlap; dividing by the axis length yields the depth contribution of a
non-unit axis). -/
noncomputable def circleAxisOverlap (vs : List (ℚ × ℚ)) (c : CircleData) (n : ℚ × ℚ) : ℝ :=
  let pr := polyProjRange vs n
  let ctr : ℝ := ((dot n (c.x, c.y) : ℚ) : ℝ)
  let rad : ℝ := ((c.r : ℚ) : ℝ) * Real.sqrt ((normSq n : ℚ) : ℝ)
  (min ((pr.2 : ℚ) : ℝ) (ctr + rad) - max ((pr.1 : ℚ) : ℝ) (ctr - rad)) /
    Real.sqrt ((normSq n : ℚ) : ℝ)

/-- Modelled from the spec: (§4.3) the reported circle-polygon overlap
depth is the smallest overlap among the candidate axes. -/
noncomputable def circlePolygonDepth (p : Polygon) (c : CircleData) : ℝ :=
  match (circlePolyAxes p c).map (fun n => circleAxisOverlap p.worldVertices c n) with
  | [] => 0
  | o :: os => os.foldl min o

/-! ## The `Collisions` facade (`src/unnamed/part_000`)

The facade owns the spatial index and forwards every call into it.  The
JavaScript methods mutate `this` and return it; the functional model returns
a pair whose first component is the updated system state and whose second
component is the value the method returns. -/

/-- The collision system: owns the bounding-volume tree (`constructor`,
`src/unnamed/part_000` line 16). -/
structure Collisions where
  bvh : Option BVHNode
deriving DecidableEq, Repr

/-- `createCircle` (`src/unnamed/part_000` lines 31-37): construct the
circle from the given parameters, insert it into the index, return it. -/
def Collisions.createCircle (s : Collisions) (id : ℤ)
    (x y radius scale padding : ℚ) : Collisions × Circle :=
  let body : Circle := ⟨id, x, y, radius, scale, padding⟩
  (⟨insertBVH s.bvh (.circle body)⟩, body)

/-- Modelled from the spec: (§7) `Polygon.js` is not in the repository; the
spec says a polygon with fewer than 3 points fails fast at construction
time with an "invalid geometry" condition. -/
def Polygon.make (id : ℤ) (x y : ℚ) (points : List (ℚ × ℚ))
    (cosA sinA scaleX scaleY padding : ℚ) : Except String Polygon :=
  if points.length < 3 then .error "invalid geometry"
  else .ok ⟨id, x, y, points, cosA, sinA, scaleX, scaleY, padding⟩

/-- `createPolygon` (`src/unnamed/part_000` lines 51-57): construct the
polygon, insert it into the index, return it; construction may fail. -/
def Collisions.createPolygon (s : Collisions) (id : ℤ) (x y : ℚ)
    (points : List (ℚ × ℚ)) (cosA sinA scaleX scaleY padding : ℚ) :
    Except String (Collisions × Polygon) :=
  match Polygon.make id x y points cosA sinA scaleX scaleY padding with
  | .error e => .error e
  | .ok body => .ok (⟨insertBVH s.bvh (.polygon body)⟩, body)

/-- `createPoint` (`src/unnamed/part_000` lines 67-73): construct the
point, insert it into the index, return it. -/
def Collisions.createPoint (s : Collisions) (id : ℤ) (x y padding : ℚ) :
    Collisions × PointBody :=
  let body : PointBody := ⟨id, x, y, padding⟩
  (⟨insertBVH s.bvh (.point body)⟩, body)

/-- The `for (const body of bodies) this._bvh.insert(body, false)` loop of
the facade's `insert` (`src/unnamed/part_000` lines 93-99). -/
def insertLoop : Option BVHNode → List Body → Option BVHNode
  | t, [] => t
  | t, b :: bs => insertLoop (insertBVH t b) bs

/-- The `for (const body of bodies) this._bvh.remove(body, false)` loop of
the facade's `remove` (`src/unnamed/part_000` lines 105-111). -/
def removeLoop : Option BVHNode → List Body → Option BVHNode
  | t, [] => t
  | t, b :: bs => removeLoop (removeBVH t b).1 bs

/-- `insert` (`src/unnamed/part_000` lines 93-99): forward every body to
the index, then return `this`. -/
def Collisions.insert (s : Collisions) (bodies : List Body) :
    Collisions × Collisions :=
  let s2 : Collisions := ⟨insertLoop s.bvh bodies⟩
  (s2, s2)

/-- `remove` (`src/unnamed/part_000` lines 105-111): forward every body to
the index, then return `this`. -/
def Collisions.remove (s : Collisions) (bodies : List Body) :
    Collisions × Collisions :=
  let s2 : Collisions := ⟨removeLoop s.bvh bodies⟩
  (s2, s2)

/-- `update` (`src/unnamed/part_000` lines 116-120): forward to the index's
`update()`, then return `this`. -/
def Collisions.update (s : Collisions) : Collisions × Collisions :=
  let s2 : Collisions := ⟨updateBVH s.bvh⟩
  (s2, s2)

/-- `potentials` (`src/unnamed/part_000` lines 143-145): forward to the
index. -/
def Collisions.potentials (s : Collisions) (body : Body) : List Body :=
  potentialsBVH s.bvh body

/-- `collides` (`src/unnamed/part_000` lines 154-156): forward to the
narrow-phase tester. -/
def collides (source target : Body) (aabb : Bool) : Bool :=
  SATtest source target aabb

/-- Circle and point bodies: the variants the narrow phase handles through
`CircleData`. -/
def Body.isRound : Body → Bool
  | .circle _ => true
  | .point _ => true
  | .polygon _ => false

/-- The narrow-phase circle data of a round body. -/
def Body.asCircleData : Body → Option CircleData
  | .circle c => some (circleData c)
  | .point t => some (pointData t)
  | .polygon _ => none

/-! ## Concrete instances used by witnesses and counterexamples -/

/-- A unit circle at the origin. -/
def bodyA : Body := .circle ⟨0, 0, 0, 1, 1, 0⟩

/-- A unit circle at (1, 0), overlapping `bodyA`. -/
def bodyB : Body := .circle ⟨1, 1, 0, 1, 1, 0⟩

/-- A two-leaf tree indexing `bodyA` and `bodyB`. -/
def treeAB : BVHNode :=
  .node ((Body.box bodyA).union (Body.box bodyB))
    (.leaf bodyA (Body.box bodyA)) (.leaf bodyB (Body.box bodyB))

/-- Degenerate polygon (all three points coincident) at the origin. -/
def degPolyA : Polygon := ⟨0, 0, 0, [(0, 0), (0, 0), (0, 0)], 1, 0, 1, 1, 0⟩

/-- Degenerate polygon (all three points coincident) at (100, 0). -/
def degPolyB : Polygon := ⟨1, 100, 0, [(0, 0), (0, 0), (0, 0)], 1, 0, 1, 1, 0⟩

/-- Circle data: radius 1 at the origin. -/
def cdA : CircleData := ⟨0, 0, 1⟩

/-- Circle data: radius 2 at (3, 0) — exactly touching `cdA`. -/
def cdB : CircleData := ⟨3, 0, 2⟩

/-- Circle data: radius 2 at the origin — concentric with `cdA`. -/
def cdC : CircleData := ⟨0, 0, 2⟩

/-- The axis-aligned square [[0,0],[10,0],[10,10],[0,10]] of spec §8. -/
def squareC6 : Polygon :=
  ⟨0, 0, 0, [(0, 0), (10, 0), (10, 10), (0, 10)], 1, 0, 1, 1, 0⟩

/-- The circle centered at (15, 5) with radius 5 of spec §8, exactly
touching `squareC6`. -/
def circleC6 : Circle := ⟨1, 15, 5, 5, 1, 0⟩

/-- A collision system holding no bodies. -/
def emptySystem : Collisions := ⟨none⟩

/-- A circle far from `bodyA` and `bodyB`, not indexed in `treeAB`. -/
def bodyC : Body := .circle ⟨2, 50, 50, 1, 1, 0⟩

/-! ## Helper lemmas: boxes -/

theorem AABB.intersects_of_mem_mem {a b : AABB} {p : ℚ × ℚ}
    (ha : p ∈ a.toSet) (hb : p ∈ b.toSet) : a.intersects b = true := by
  obtain ⟨h1, h2, h3, h4⟩ := ha
  obtain ⟨h5, h6, h7, h8⟩ := hb
  simp only [AABB.intersects, Bool.and_eq_true, decide_eq_true_eq]
  exact ⟨⟨⟨le_trans h1 h6, le_trans h5 h2⟩, le_trans h3 h8⟩, le_trans h7 h4⟩

theorem AABB.containsBox_refl (a : AABB) : a.containsBox a = true := by
  simp [AABB.containsBox]

theorem AABB.containsBox_trans {a b c : AABB}
    (h1 : a.containsBox b = true) (h2 : b.containsBox c = true) :
    a.containsBox c = true := by
  simp only [AABB.containsBox, Bool.and_eq_true, decide_eq_true_eq] at h1 h2 ⊢
  exact ⟨⟨⟨le_trans h1.1.1.1 h2.1.1.1, le_trans h2.1.1.2 h1.1.1.2⟩,
    le_trans h1.1.2 h2.1.2⟩, le_trans h2.2 h1.2⟩

theorem AABB.toSet_subset_of_containsBox {outer inner : AABB}
    (h : outer.containsBox inner = true) : inner.toSet ⊆ outer.toSet := by
  simp only [AABB.containsBox, Bool.and_eq_true, decide_eq_true_eq] at h
  intro p hp
  obtain ⟨h1, h2, h3, h4⟩ := hp
  exact ⟨le_trans h.1.1.1 h1, le_trans h2 h.1.1.2,
    le_trans h.1.2 h3, le_trans h4 h.2⟩

theorem AABB.intersects_of_containsBox {outer inner q : AABB}
    (hc : outer.containsBox inner = true) (hi : inner.intersects q = true) :
    outer.intersects q = true := by
  simp only [AABB.containsBox, AABB.intersects, Bool.and_eq_true,
    decide_eq_true_eq] at hc hi ⊢
  exact ⟨⟨⟨le_trans hc.1.1.1 hi.1.1.1, le_trans hi.1.1.2 hc.1.1.2⟩,
    le_trans hc.1.2 hi.1.2⟩, le_trans hi.2 hc.2⟩

theorem AABB.mem_inflate {a : AABB} {d : ℚ} {p q : ℚ × ℚ}
    (hp : p ∈ a.toSet) (h1 : |q.1 - p.1| ≤ d) (h2 : |q.2 - p.2| ≤ d) :
    q ∈ (a.inflate d).toSet := by
  obtain ⟨ha, hb, hc, he⟩ := hp
  obtain ⟨h1l, h1r⟩ := abs_le.mp h1
  obtain ⟨h2l, h2r⟩ := abs_le.mp h2
  refine ⟨?_, ?_, ?_, ?_⟩ <;> simp only [AABB.inflate] <;> linarith

theorem combo_mem_interval {lo hi u v s t : ℚ} (hs : 0 ≤ s) (ht : 0 ≤ t)
    (hst : s + t = 1) (h1 : lo ≤ u) (h2 : u ≤ hi) (h3 : lo ≤ v) (h4 : v ≤ hi) :
    lo ≤ s * u + t * v ∧ s * u + t * v ≤ hi := by
  constructor
  · have h : (s + t) * lo ≤ s * u + t * v := by
      rw [add_mul]
      exact add_le_add (mul_le_mul_of_nonneg_left h1 hs) (mul_le_mul_of_nonneg_left h3 ht)
    rwa [hst, one_mul] at h
  · have h : s * u + t * v ≤ (s + t) * hi := by
      rw [add_mul]
      exact add_le_add (mul_le_mul_of_nonneg_left h2 hs) (mul_le_mul_of_nonneg_left h4 ht)
    rwa [hst, one_mul] at h

theorem AABB.convex_toSet (a : AABB) : Convex ℚ a.toSet := by
  intro p hp q hq s t hs ht hst
  obtain ⟨h1, h2, h3, h4⟩ := hp
  obtain ⟨h5, h6, h7, h8⟩ := hq
  have e1 : (s • p + t • q).1 = s * p.1 + t * q.1 := rfl
  have e2 : (s • p + t • q).2 = s * p.2 + t * q.2 := rfl
  refine ⟨?_, ?_, ?_, ?_⟩
  · rw [e1]; exact (combo_mem_interval hs ht hst h1 h2 h5 h6).1
  · rw [e1]; exact (combo_mem_interval hs ht hst h1 h2 h5 h6).2
  · rw [e2]; exact (combo_mem_interval hs ht hst h3 h4 h7 h8).1
  · rw [e2]; exact (combo_mem_interval hs ht hst h3 h4 h7 h8).2

/-! ## Helper lemmas: folds -/

theorem foldMin_le (x : ℚ) (xs : List ℚ) : foldMin x xs ≤ x := by
  induction xs generalizing x with
  | nil => exact le_refl x
  | cons a l ih =>
      have h := ih (min x a)
      exact le_trans h (min_le_left x a)

theorem foldMin_le_of_mem {y : ℚ} {xs : List ℚ} (h : y ∈ xs) (x : ℚ) :
    foldMin x xs ≤ y := by
  induction xs generalizing x with
  | nil => cases h
  | cons a l ih =>
      rcases List.mem_cons.mp h with rfl | hl
      · exact le_trans (foldMin_le (min x y) l) (min_le_right x y)
      · exact ih hl (min x a)

theorem le_foldMax (x : ℚ) (xs : List ℚ) : x ≤ foldMax x xs := by
  induction xs generalizing x with
  | nil => exact le_refl x
  | cons a l ih =>
      have h := ih (max x a)
      exact le_trans (le_max_left x a) h

theorem le_foldMax_of_mem {y : ℚ} {xs : List ℚ} (h : y ∈ xs) (x : ℚ) :
    y ≤ foldMax x xs := by
  induction xs generalizing x with
  | nil => cases h
  | cons a l ih =>
      rcases List.mem_cons.mp h with rfl | hl
      · exact le_trans (le_max_right x y) (le_foldMax (max x y) l)
      · exact ih hl (max x a)

/-! ## Helper lemmas: extents and boxes -/

theorem disc_bounds {cx cy rs p1 p2 : ℚ} (hrs : 0 ≤ rs)
    (h : (p1 - cx) ^ 2 + (p2 - cy) ^ 2 ≤ rs ^ 2) :
    cx - rs ≤ p1 ∧ p1 ≤ cx + rs ∧ cy - rs ≤ p2 ∧ p2 ≤ cy + rs := by
  have h1 : (p1 - cx) ^ 2 ≤ rs ^ 2 := by nlinarith [sq_nonneg (p2 - cy)]
  have h2 : (p2 - cy) ^ 2 ≤ rs ^ 2 := by nlinarith [sq_nonneg (p1 - cx)]
  obtain ⟨h1l, h1r⟩ := abs_le_of_sq_le_sq' h1 hrs
  obtain ⟨h2l, h2r⟩ := abs_le_of_sq_le_sq' h2 hrs
  exact ⟨by linarith, by linarith, by linarith, by linarith⟩

theorem Body.wf_circle {c : Circle} (h : (Body.circle c).wf = true) :
    0 ≤ c.radius ∧ 0 ≤ c.scale ∧ 0 ≤ c.padding := by
  simp only [Body.wf, Bool.and_eq_true, decide_eq_true_eq] at h
  exact ⟨h.1.1, h.1.2, h.2⟩

theorem Body.wf_polygon {p : Polygon} (h : (Body.polygon p).wf = true) :
    0 ≤ p.padding ∧ 3 ≤ p.points.length := by
  simp only [Body.wf, Bool.and_eq_true, decide_eq_true_eq] at h
  exact h

theorem Body.wf_point {t : PointBody} (h : (Body.point t).wf = true) :
    0 ≤ t.padding := by
  simp only [Body.wf, decide_eq_true_eq] at h
  exact h

theorem Body.wf_padding {b : Body} (h : b.wf = true) : 0 ≤ b.paddingOf := by
  cases b with
  | circle c => exact (Body.wf_circle h).2.2
  | polygon p => exact (Body.wf_polygon h).1
  | point t => exact Body.wf_point h

theorem Polygon.worldVertices_ne_nil {p : Polygon} (h : 3 ≤ p.points.length) :
    p.worldVertices ≠ [] := by
  intro heq
  have hl := congrArg List.length heq
  simp only [Polygon.worldVertices, List.length_map, List.length_nil] at hl
  omega

theorem extent_subset_unpadded (b : Body) (h : b.wf = true) :
    b.extent ⊆ b.unpaddedBox.toSet := by
  cases b with
  | circle c =>
      obtain ⟨hr, hs, _⟩ := Body.wf_circle h
      intro p hp
      have hrs : 0 ≤ c.radius * c.scale := mul_nonneg hr hs
      have hb := disc_bounds hrs hp
      exact ⟨hb.1, hb.2.1, hb.2.2.1, hb.2.2.2⟩
  | point t =>
      intro p hp
      have hp2 : p = (t.x, t.y) := hp
      subst hp2
      exact ⟨le_refl _, le_refl _, le_refl _, le_refl _⟩
  | polygon pg =>
      obtain ⟨_, h3⟩ := Body.wf_polygon h
      cases hv : pg.worldVertices with
      | nil => exact absurd hv (Polygon.worldVertices_ne_nil h3)
      | cons v vs =>
          have hsub : {w : ℚ × ℚ | w ∈ pg.worldVertices} ⊆
              ((Body.polygon pg).unpaddedBox).toSet := by
            intro w hw
            have hw2 : w ∈ v :: vs := by rw [← hv]; exact hw
            simp only [Body.unpaddedBox, hv]
            rcases List.mem_cons.mp hw2 with rfl | hmem
            · exact ⟨foldMin_le _ _, le_foldMax _ _, foldMin_le _ _, le_foldMax _ _⟩
            · refine ⟨foldMin_le_of_mem ?_ _, le_foldMax_of_mem ?_ _,
                foldMin_le_of_mem ?_ _, le_foldMax_of_mem ?_ _⟩
              · exact List.mem_map.mpr ⟨w, hmem, rfl⟩
              · exact List.mem_map.mpr ⟨w, hmem, rfl⟩
              · exact List.mem_map.mpr ⟨w, hmem, rfl⟩
              · exact List.mem_map.mpr ⟨w, hmem, rfl⟩
          exact convexHull_min hsub (AABB.convex_toSet _)

theorem extent_subset_box (b : Body) (h : b.wf = true) :
    b.extent ⊆ b.box.toSet := by
  intro p hp
  have h0 := Body.wf_padding h
  have h1 := extent_subset_unpadded b h hp
  have h2 : |p.1 - p.1| ≤ b.paddingOf := by simpa using h0
  have h3 : |p.2 - p.2| ≤ b.paddingOf := by simpa using h0
  exact AABB.mem_inflate h1 h2 h3

/-! ## Helper lemmas: broad-phase traversal -/

theorem BVHNode.bodies_eq_map (t : BVHNode) :
    t.bodies = t.leafEntries.map Prod.fst := by
  induction t with
  | leaf b sbox => rfl
  | node nbox l r ihl ihr => simp [BVHNode.bodies, BVHNode.leafEntries, ihl, ihr]

theorem BVHNode.inv_node {nbox : AABB} {l r : BVHNode}
    (h : (BVHNode.node nbox l r).inv = true) :
    nbox.containsBox l.nodeBox = true ∧ nbox.containsBox r.nodeBox = true ∧
    l.inv = true ∧ r.inv = true := by
  simp only [BVHNode.inv, Bool.and_eq_true] at h
  exact ⟨h.1.1.1, h.1.1.2, h.1.2, h.2⟩

theorem BVHNode.inv_leaf_entry {t : BVHNode} {c : Body} {sb : AABB}
    (hinv : t.inv = true) (hmem : (c, sb) ∈ t.leafEntries) :
    sb.containsBox c.unpaddedBox = true := by
  induction t with
  | leaf b sbox =>
      simp only [BVHNode.leafEntries, List.mem_singleton, Prod.mk.injEq] at hmem
      obtain ⟨rfl, rfl⟩ := hmem
      exact hinv
  | node nbox l r ihl ihr =>
      obtain ⟨_, _, hl, hr⟩ := BVHNode.inv_node hinv
      rcases List.mem_append.mp hmem with h | h
      · exact ihl hl h
      · exact ihr hr h

theorem BVHNode.nodeBox_contains_entry {t : BVHNode} {c : Body} {sb : AABB}
    (hinv : t.inv = true) (hmem : (c, sb) ∈ t.leafEntries) :
    t.nodeBox.containsBox sb = true := by
  induction t with
  | leaf b sbox =>
      simp only [BVHNode.leafEntries, List.mem_singleton, Prod.mk.injEq] at hmem
      obtain ⟨rfl, rfl⟩ := hmem
      exact AABB.containsBox_refl _
  | node nbox l r ihl ihr =>
      obtain ⟨hcl, hcr, hl, hr⟩ := BVHNode.inv_node hinv
      rcases List.mem_append.mp hmem with h | h
      · exact AABB.containsBox_trans hcl (ihl hl h)
      · exact AABB.containsBox_trans hcr (ihr hr h)

theorem BVHNode.collect_complete {t : BVHNode} {qbox : AABB} {qb c : Body}
    {sb : AABB} (hinv : t.inv = true) (hmem : (c, sb) ∈ t.leafEntries)
    (hint : sb.intersects qbox = true) (hne : c ≠ qb) :
    c ∈ t.collectPotentials qbox qb := by
  induction t with
  | leaf b sbox =>
      simp only [BVHNode.leafEntries, List.mem_singleton, Prod.mk.injEq] at hmem
      obtain ⟨rfl, rfl⟩ := hmem
      simp [BVHNode.collectPotentials, hne]
  | node nbox l r ihl ihr =>
      obtain ⟨hcl, hcr, hl, hr⟩ := BVHNode.inv_node hinv
      simp only [BVHNode.collectPotentials, List.mem_append]
      rcases List.mem_append.mp hmem with h | h
      · have hbox : l.nodeBox.intersects qbox = true :=
          AABB.intersects_of_containsBox (BVHNode.nodeBox_contains_entry hl h) hint
        left
        rw [if_pos hbox]
        exact ihl hl h
      · have hbox : r.nodeBox.intersects qbox = true :=
          AABB.intersects_of_containsBox (BVHNode.nodeBox_contains_entry hr h) hint
        right
        rw [if_pos hbox]
        exact ihr hr h

theorem BVHNode.collect_sublist (t : BVHNode) (qbox : AABB) (qb : Body) :
    (t.collectPotentials qbox qb).Sublist t.bodies := by
  induction t with
  | leaf b sbox =>
      simp only [BVHNode.collectPotentials, BVHNode.bodies]
      split
      · exact List.nil_sublist _
      · exact List.Sublist.refl _
  | node nbox l r ihl ihr =>
      simp only [BVHNode.collectPotentials, BVHNode.bodies]
      apply List.Sublist.append
      · split
        · exact ihl
        · exact List.nil_sublist _
      · split
        · exact ihr
        · exact List.nil_sublist _

theorem BVHNode.self_not_mem_collect (t : BVHNode) (qbox : AABB) (qb : Body) :
    qb ∉ t.collectPotentials qbox qb := by
  induction t with
  | leaf b sbox =>
      simp only [BVHNode.collectPotentials]
      split
      · simp
      · rename_i hne
        simp only [List.mem_singleton]
        intro he
        exact hne he.symm
  | node nbox l r ihl ihr =>
      intro hmem
      simp only [BVHNode.collectPotentials, List.mem_append] at hmem
      rcases hmem with h | h
      · split at h
        · exact ihl h
        · simp at h
      · split at h
        · exact ihr h
        · simp at h

/-- C1: for every indexed body `b`, `potentials(b)` contains every other
indexed body whose geometry truly overlaps `b`'s geometry, has no duplicate
entries (when the index holds no duplicate bodies), and never contains `b`
itself. -/
theorem c1_potentials_superset_nodup_irrefl (t : BVHNode) (b c : Body)
    (hinv : t.inv = true) (hc : c ∈ t.bodies) (hne : c ≠ b)
    (hwc : c.wf = true) (hwb : b.wf = true)
    (hov : ∃ p : ℚ × ℚ, p ∈ c.extent ∧ p ∈ b.extent) :
    c ∈ potentialsBVH (some t) b ∧
    (t.bodies.Nodup → (potentialsBVH (some t) b).Nodup) ∧
    b ∉ potentialsBVH (some t) b := by
  obtain ⟨p, hpc, hpb⟩ := hov
  have hmap : c ∈ t.leafEntries.map Prod.fst := by
    rw [← BVHNode.bodies_eq_map]; exact hc
  obtain ⟨⟨c2, sb⟩, hmem, hfst⟩ := List.mem_map.mp hmap
  cases hfst
  have hsbC : sb.containsBox (Body.unpaddedBox c2) = true :=
    BVHNode.inv_leaf_entry hinv hmem
  have hp1 : p ∈ sb.toSet :=
    AABB.toSet_subset_of_containsBox hsbC (extent_subset_unpadded c2 hwc hpc)
  have hp2 : p ∈ (Body.box b).toSet := extent_subset_box b hwb hpb
  have hint : sb.intersects (Body.box b) = true := AABB.intersects_of_mem_mem hp1 hp2
  refine ⟨BVHNode.collect_complete hinv hmem hint hne, ?_, ?_⟩
  · intro hnd
    exact (BVHNode.collect_sublist t (Body.box b) b).nodup hnd
  · exact BVHNode.self_not_mem_collect t (Body.box b) b

/-- Witness for C1 at a concrete two-body index: the unit circle at (1,0)
truly overlaps the unit circle at the origin and shows up in its
potentials. -/
theorem c1_witness :
    treeAB.inv = true ∧ bodyB ∈ potentialsBVH (some treeAB) bodyA :=
  ⟨by with_unfolding_all decide,
    (c1_potentials_superset_nodup_irrefl treeAB bodyA bodyB
      (by with_unfolding_all decide) (by with_unfolding_all decide)
      (by with_unfolding_all decide) (by with_unfolding_all decide)
      (by with_unfolding_all decide)
      ⟨((1 / 2 : ℚ), (0 : ℚ)),
        by simp only [bodyB, Body.extent, Set.mem_setOf_eq]; norm_num,
        by simp only [bodyA, Body.extent, Set.mem_setOf_eq]; norm_num⟩).1⟩

/-! ## Helper lemmas: removal -/

theorem BVHNode.removeNode_eq_none_of_not_mem {t : BVHNode} {b : Body}
    (hmem : b ∉ t.bodies) : t.removeNode b = none := by
  induction t with
  | leaf c sbox =>
      have hne : ¬(c = b) := fun h => hmem (by simp [BVHNode.bodies, h])
      simp [BVHNode.removeNode, hne]
  | node nbox l r ihl ihr =>
      have hl : b ∉ l.bodies := fun h =>
        hmem (by simp only [BVHNode.bodies, List.mem_append]; exact Or.inl h)
      have hr : b ∉ r.bodies := fun h =>
        hmem (by simp only [BVHNode.bodies, List.mem_append]; exact Or.inr h)
      simp [BVHNode.removeNode, ihl hl, ihr hr]

/-- C7: removing a body that is not currently indexed reports the
"not found" condition, returns the tree completely unmodified, preserves
the tree invariant, and the facade's `remove` leaves the system state
unchanged. -/
theorem c7_remove_unindexed_noop (t : Option BVHNode) (b : Body)
    (h : b ∉ bodiesOpt t) :
    removeBVH t b = (t, RemoveOutcome.notFound) ∧
    invOpt (removeBVH t b).1 = invOpt t ∧
    (Collisions.remove ⟨t⟩ [b]).1 = ⟨t⟩ := by
  have heq : removeBVH t b = (t, RemoveOutcome.notFound) := by
    cases t with
    | none => rfl
    | some n =>
        have hn : b ∉ n.bodies := h
        simp [removeBVH, BVHNode.removeNode_eq_none_of_not_mem hn]
  refine ⟨heq, by rw [heq], ?_⟩
  show (⟨removeLoop t [b]⟩ : Collisions) = ⟨t⟩
  have : removeLoop t [b] = (removeBVH t b).1 := rfl
  rw [this, heq]

/-- Witness for C7: removing a circle that was never indexed from the
two-body tree reports `notFound` and returns the tree unchanged. -/
theorem c7_witness :
    bodyC ∉ bodiesOpt (some treeAB) ∧
    removeBVH (some treeAB) bodyC = (some treeAB, RemoveOutcome.notFound) :=
  ⟨by with_unfolding_all decide,
    (c7_remove_unindexed_noop (some treeAB) bodyC (by with_unfolding_all decide)).1⟩

/-! ## Construction and facade claims -/

/-- C4: constructing a polygon from fewer than 3 points fails fast with the
"invalid geometry" condition, both at the constructor and through the
facade's `createPolygon`, which therefore never yields a usable body from
such a point list. -/
theorem c4_polygon_invalid_geometry (s : Collisions) (id : ℤ) (x y : ℚ)
    (points : List (ℚ × ℚ)) (cosA sinA scaleX scaleY padding : ℚ)
    (h : points.length < 3) :
    s.createPolygon id x y points cosA sinA scaleX scaleY padding =
      Except.error "invalid geometry" ∧
    Polygon.make id x y points cosA sinA scaleX scaleY padding =
      Except.error "invalid geometry" := by
  have hm : Polygon.make id x y points cosA sinA scaleX scaleY padding =
      Except.error "invalid geometry" := by
    simp [Polygon.make, h]
  exact ⟨by simp [Collisions.createPolygon, hm], hm⟩

/-- Witness for C4: the facade's own default point list `[[0, 0]]`
(`src/unnamed/part_000` line 51) has fewer than 3 points and is rejected. -/
theorem c4_witness :
    [((0 : ℚ), (0 : ℚ))].length < 3 ∧
    emptySystem.createPolygon 0 0 0 [(0, 0)] 1 0 1 1 0 =
      Except.error "invalid geometry" :=
  ⟨by decide,
    (c4_polygon_invalid_geometry emptySystem 0 0 0 [(0, 0)] 1 0 1 1 0 (by decide)).1⟩

theorem BVHNode.mem_insertNode (t : BVHNode) (b : Body) :
    b ∈ (t.insertNode b).bodies := by
  induction t with
  | leaf c sbox => simp [BVHNode.insertNode, BVHNode.bodies]
  | node nbox l r ihl ihr =>
      simp only [BVHNode.insertNode]
      split
      · simp only [BVHNode.bodies, List.mem_append]; exact Or.inl ihl
      · simp only [BVHNode.bodies, List.mem_append]; exact Or.inr ihr

theorem mem_insertBVH (t : Option BVHNode) (b : Body) :
    b ∈ bodiesOpt (insertBVH t b) := by
  cases t with
  | none => simp [insertBVH, bodiesOpt, BVHNode.bodies]
  | some n => exact BVHNode.mem_insertNode n b

/-- C9: each facade create operation (`createCircle`, `createPolygon`,
`createPoint`) constructs the body from the given parameters and inserts it
into the internal spatial index before returning it. -/
theorem c9_create_constructs_and_inserts (s : Collisions) (id : ℤ)
    (x y radius scale padding : ℚ) (points : List (ℚ × ℚ))
    (cosA sinA scaleX scaleY : ℚ) (h3 : 3 ≤ points.length) :
    ((s.createCircle id x y radius scale padding).2 =
        ⟨id, x, y, radius, scale, padding⟩ ∧
      Body.circle (s.createCircle id x y radius scale padding).2 ∈
        bodiesOpt (s.createCircle id x y radius scale padding).1.bvh) ∧
    ((s.createPoint id x y padding).2 = ⟨id, x, y, padding⟩ ∧
      Body.point (s.createPoint id x y padding).2 ∈
        bodiesOpt (s.createPoint id x y padding).1.bvh) ∧
    (∃ s2 body,
      s.createPolygon id x y points cosA sinA scaleX scaleY padding =
        Except.ok (s2, body) ∧
      body = ⟨id, x, y, points, cosA, sinA, scaleX, scaleY, padding⟩ ∧
      Body.polygon body ∈ bodiesOpt s2.bvh) := by
  refine ⟨⟨rfl, mem_insertBVH s.bvh _⟩, ⟨rfl, mem_insertBVH s.bvh _⟩, ?_⟩
  have hm : Polygon.make id x y points cosA sinA scaleX scaleY padding =
      Except.ok ⟨id, x, y, points, cosA, sinA, scaleX, scaleY, padding⟩ := by
    simp [Polygon.make, Nat.not_lt.mpr h3]
  refine ⟨⟨insertBVH s.bvh (.polygon ⟨id, x, y, points, cosA, sinA, scaleX, scaleY, padding⟩)⟩,
    ⟨id, x, y, points, cosA, sinA, scaleX, scaleY, padding⟩, ?_, rfl,
    mem_insertBVH s.bvh _⟩
  simp [Collisions.createPolygon, hm]

/-- Witness for C9: a freshly created circle is indexed in the returned
system, and a triangle's point list passes the length hypothesis. -/
theorem c9_witness :
    3 ≤ [((0 : ℚ), (0 : ℚ)), (1, 0), (0, 1)].length ∧
    Body.circle (emptySystem.createCircle 0 1 2 3 1 0).2 ∈
      bodiesOpt (emptySystem.createCircle 0 1 2 3 1 0).1.bvh :=
  ⟨by decide,
    (c9_create_constructs_and_inserts emptySystem 0 1 2 3 1 0
      [(0, 0), (1, 0), (0, 1)] 1 0 1 1 (by decide)).1.2⟩

theorem insertLoop_eq_foldl (bs : List Body) (t : Option BVHNode) :
    insertLoop t bs = bs.foldl insertBVH t := by
  induction bs generalizing t with
  | nil => rfl
  | cons b l ih => simp [insertLoop, List.foldl, ih]

theorem removeLoop_eq_foldl (bs : List Body) (t : Option BVHNode) :
    removeLoop t bs = bs.foldl (fun u b => (removeBVH u b).1) t := by
  induction bs generalizing t with
  | nil => rfl
  | cons b l ih => simp [removeLoop, List.foldl, ih]

/-- C10: the facade's `insert`, `remove` and `update` each forward every
given body to the index (in order) and return the `Collisions` instance
itself — the returned value is exactly the updated system, so calls can be
chained, and there is no other return value. -/
theorem c10_facade_chainable (s : Collisions) (bodies : List Body) :
    ((s.insert bodies).2 = (s.insert bodies).1 ∧
      (s.insert bodies).1.bvh = bodies.foldl insertBVH s.bvh) ∧
    ((s.remove bodies).2 = (s.remove bodies).1 ∧
      (s.remove bodies).1.bvh = bodies.foldl (fun u b => (removeBVH u b).1) s.bvh) ∧
    (s.update.2 = s.update.1 ∧ s.update.1.bvh = updateBVH s.bvh) :=
  ⟨⟨rfl, insertLoop_eq_foldl bodies s.bvh⟩,
   ⟨rfl, removeLoop_eq_foldl bodies s.bvh⟩,
   ⟨rfl, rfl⟩⟩

/-! ## Circle-circle narrow phase (C3) -/

/-- C3 counterexample: two circles whose centers are at distance exactly
r1 + r2 (radius 1 at the origin, radius 2 at (3,0)).  The narrow phase
reports a collision — touching counts as colliding (spec §8) — yet
d < r1 + r2 fails, so "collide iff d < r1 + r2" is false as stated. -/
theorem c3_counterexample :
    circleCircleCollide cdA cdB = true ∧
    ¬ Real.sqrt ((circleDistSq cdA cdB : ℚ) : ℝ) < (cdA.r : ℝ) + (cdB.r : ℝ) := by
  constructor
  · with_unfolding_all decide
  · have h1 : ((circleDistSq cdA cdB : ℚ) : ℝ) = 9 := by
      norm_num [circleDistSq, cdA, cdB]
    have h2 : (cdA.r : ℝ) + (cdB.r : ℝ) = 3 := by norm_num [cdA, cdB]
    rw [h1, h2, show (9 : ℝ) = 3 ^ 2 by norm_num, Real.sqrt_sq (by norm_num)]
    exact lt_irrefl 3

/-- C3 as amended: for circles with non-negative scaled radii, the narrow
phase reports a collision iff the center distance d satisfies d ≤ r1 + r2
(touching included), and the reported overlap depth is exactly
(r1 + r2) − d. -/
theorem c3_circle_circle_narrow (a b : CircleData)
    (ha : 0 ≤ a.r) (hb : 0 ≤ b.r) :
    (circleCircleCollide a b = true ↔
      Real.sqrt ((circleDistSq a b : ℚ) : ℝ) ≤ (a.r : ℝ) + (b.r : ℝ)) ∧
    (circleCircleCollide a b = true →
      circleCircleDepth a b =
        ((a.r : ℝ) + (b.r : ℝ)) - Real.sqrt ((circleDistSq a b : ℚ) : ℝ)) := by
  constructor
  · constructor
    · intro h
      have h2 : circleDistSq a b ≤ (a.r + b.r) ^ 2 := by
        simpa [circleCircleCollide] using h
      rw [Real.sqrt_le_iff]
      constructor
      · have ha2 : (0 : ℝ) ≤ (a.r : ℝ) := by exact_mod_cast ha
        have hb2 : (0 : ℝ) ≤ (b.r : ℝ) := by exact_mod_cast hb
        linarith
      · exact_mod_cast h2
    · intro h
      rw [Real.sqrt_le_iff] at h
      have h2 : ((circleDistSq a b : ℚ) : ℝ) ≤ ((a.r : ℝ) + (b.r : ℝ)) ^ 2 := h.2
      have h3 : circleDistSq a b ≤ (a.r + b.r) ^ 2 := by exact_mod_cast h2
      simpa [circleCircleCollide] using h3
  · intro _
    rfl

/-- Witness for C3's amended theorem at the touching pair: the radii are
non-negative and the iff holds there. -/
theorem c3_witness :
    (0 : ℚ) ≤ cdA.r ∧
    (circleCircleCollide cdA cdB = true ↔
      Real.sqrt ((circleDistSq cdA cdB : ℚ) : ℝ) ≤ (cdA.r : ℝ) + (cdB.r : ℝ)) :=
  ⟨by with_unfolding_all decide,
    (c3_circle_circle_narrow cdA cdB (by with_unfolding_all decide)
      (by with_unfolding_all decide)).1⟩

/-! ## Symmetry (C5) -/

theorem circleDistSq_comm (a b : CircleData) :
    circleDistSq a b = circleDistSq b a := by
  simp only [circleDistSq]
  ring

theorem circleCircleCollide_comm (a b : CircleData) :
    circleCircleCollide a b = circleCircleCollide b a := by
  unfold circleCircleCollide
  rw [decide_eq_decide, circleDistSq_comm, add_comm a.r b.r]

theorem polyAxisSeparates_comm (va vb : List (ℚ × ℚ)) (n : ℚ × ℚ) :
    polyAxisSeparates va vb n = polyAxisSeparates vb va n := by
  simp only [polyAxisSeparates]
  rw [Bool.or_comm]

theorem polygonPolygonCollide_comm (p q : Polygon) :
    polygonPolygonCollide p q = polygonPolygonCollide q p := by
  unfold polygonPolygonCollide
  have hf : (fun n => polyAxisSeparates q.worldVertices p.worldVertices n)
      = (fun n => polyAxisSeparates p.worldVertices q.worldVertices n) := by
    funext n
    exact polyAxisSeparates_comm _ _ n
  rw [hf]
  simp only [List.any_append]
  rw [Bool.or_comm]

theorem satCollide_comm (a b : Body) : satCollide a b = satCollide b a := by
  cases a with
  | circle c =>
      cases b with
      | circle d => exact circleCircleCollide_comm _ _
      | polygon q => rfl
      | point t => exact circleCircleCollide_comm _ _
  | polygon p =>
      cases b with
      | circle d => rfl
      | polygon q => exact polygonPolygonCollide_comm _ _
      | point t => rfl
  | point s =>
      cases b with
      | circle d => exact circleCircleCollide_comm _ _
      | polygon q => rfl
      | point t => exact circleCircleCollide_comm _ _

theorem AABB.intersects_comm (a b : AABB) : a.intersects b = b.intersects a := by
  rw [Bool.eq_iff_iff]
  simp only [AABB.intersects, Bool.and_eq_true, decide_eq_true_eq]
  tauto

/-- C5 counterexample: two concentric circles (radii 1 and 2 at the
origin).  Both orderings report a collision and an overlap normal, but the
degenerate-case policy reports the same fixed normal (1,0) for both orders,
which is not opposite to itself. -/
theorem c5_counterexample :
    circleCircleCollide cdA cdC = true ∧ circleCircleCollide cdC cdA = true ∧
    circleCircleNormal cdA cdC = (1, 0) ∧ circleCircleNormal cdC cdA = (1, 0) ∧
    circleCircleNormal cdA cdC ≠
      (-(circleCircleNormal cdC cdA).1, -(circleCircleNormal cdC cdA).2) := by
  have hd : circleDistSq cdA cdC = 0 := by norm_num [circleDistSq, cdA, cdC]
  have hd2 : circleDistSq cdC cdA = 0 := by norm_num [circleDistSq, cdA, cdC]
  have h1 : circleCircleNormal cdA cdC = (1, 0) := by
    unfold circleCircleNormal
    rw [if_pos hd]
  have h2 : circleCircleNormal cdC cdA = (1, 0) := by
    unfold circleCircleNormal
    rw [if_pos hd2]
  refine ⟨by with_unfolding_all decide, by with_unfolding_all decide, h1, h2, ?_⟩
  rw [h1, h2]
  intro h
  rw [Prod.mk.injEq] at h
  have := h.1
  norm_num at this

/-- C5 as amended: the collision boolean is symmetric for every pair of
bodies, with or without the bounding-box pre-check; and whenever the two
centers of a circle/point pair are distinct, the normals reported for the
two orderings are opposite in sign (with coincident centers both orders
report the same fixed arbitrary normal). -/
theorem c5_symmetry :
    (∀ a b : Body, satCollide a b = satCollide b a) ∧
    (∀ (a b : Body) (flag : Bool), SATtest a b flag = SATtest b a flag) ∧
    (∀ c d : CircleData, circleDistSq c d ≠ 0 →
      circleCircleNormal c d =
        (-(circleCircleNormal d c).1, -(circleCircleNormal d c).2)) := by
  refine ⟨satCollide_comm, ?_, ?_⟩
  · intro a b flag
    unfold SATtest
    rw [AABB.intersects_comm, satCollide_comm]
  · intro c d h
    have h2 : circleDistSq d c ≠ 0 := by rwa [circleDistSq_comm d c]
    unfold circleCircleNormal
    rw [if_neg h, if_neg h2]
    simp only
    rw [circleDistSq_comm d c]
    rw [Prod.mk.injEq]
    constructor
    · rw [← neg_div]
      congr 1
      push_cast
      ring
    · rw [← neg_div]
      congr 1
      push_cast
      ring

/-- Witness for C5's amended theorem: distinct centers give opposite
normals for the two orderings. -/
theorem c5_witness :
    circleDistSq cdA cdB ≠ 0 ∧
    circleCircleNormal cdA cdB =
      (-(circleCircleNormal cdB cdA).1, -(circleCircleNormal cdB cdA).2) :=
  ⟨by with_unfolding_all decide,
    c5_symmetry.2.2 cdA cdB (by with_unfolding_all decide)⟩

/-! ## The bounding-box pre-check (C2) -/

/-- C2 counterexample: two degenerate polygons whose three points all
coincide, placed 100 apart.  All their edges have zero length, so the axis
enumeration has no candidate axis and the full test reports a collision,
while their boxes are disjoint and the pre-check reports none: the `aabb`
flag changes the outcome. -/
theorem c2_counterexample :
    SATtest (.polygon degPolyA) (.polygon degPolyB) true = false ∧
    SATtest (.polygon degPolyA) (.polygon degPolyB) false = true := by
  constructor
  · with_unfolding_all decide
  · with_unfolding_all decide

theorem circle_boxes_intersect_of_collide {ax ay ar ap bx by2 br bp : ℚ}
    (har : 0 ≤ ar) (hbr : 0 ≤ br) (hap : 0 ≤ ap) (hbp : 0 ≤ bp)
    (h : (bx - ax) ^ 2 + (by2 - ay) ^ 2 ≤ (ar + br) ^ 2) :
    AABB.intersects ⟨ax - ar - ap, ay - ar - ap, ax + ar + ap, ay + ar + ap⟩
      ⟨bx - br - bp, by2 - br - bp, bx + br + bp, by2 + br + bp⟩ = true := by
  simp only [AABB.intersects, Bool.and_eq_true, decide_eq_true_eq]
  have h1 : |bx - ax| ≤ ar + br := by
    apply abs_le_of_sq_le_sq _ (by linarith)
    nlinarith [sq_nonneg (by2 - ay)]
  have h2 : |by2 - ay| ≤ ar + br := by
    apply abs_le_of_sq_le_sq _ (by linarith)
    nlinarith [sq_nonneg (bx - ax)]
  obtain ⟨h1l, h1r⟩ := abs_le.mp h1
  obtain ⟨h2l, h2r⟩ := abs_le.mp h2
  refine ⟨⟨⟨?_, ?_⟩, ?_⟩, ?_⟩ <;> linarith

theorem box_of_asCircleData {b : Body} {c : CircleData}
    (h : b.asCircleData = some c) :
    Body.box b = ⟨c.x - c.r - b.paddingOf, c.y - c.r - b.paddingOf,
                  c.x + c.r + b.paddingOf, c.y + c.r + b.paddingOf⟩ := by
  cases b with
  | circle c0 =>
      simp only [Body.asCircleData, Option.some.injEq] at h
      subst h
      rfl
  | point t =>
      simp only [Body.asCircleData, Option.some.injEq] at h
      subst h
      show AABB.inflate ⟨t.x, t.y, t.x, t.y⟩ t.padding = _
      simp only [AABB.inflate, pointData, Body.paddingOf, AABB.mk.injEq]
      exact ⟨by ring, by ring, by ring, by ring⟩
  | polygon p => simp [Body.asCircleData] at h

theorem asCircleData_r_nonneg {b : Body} {c : CircleData}
    (h : b.asCircleData = some c) (hw : b.wf = true) : 0 ≤ c.r := by
  cases b with
  | circle c0 =>
      simp only [Body.asCircleData, Option.some.injEq] at h
      subst h
      exact mul_nonneg (Body.wf_circle hw).1 (Body.wf_circle hw).2.1
  | point t =>
      simp only [Body.asCircleData, Option.some.injEq] at h
      subst h
      exact le_refl 0
  | polygon p => simp [Body.asCircleData] at h

theorem satCollide_round {a b : Body} {ca cb : CircleData}
    (hca : a.asCircleData = some ca) (hcb : b.asCircleData = some cb) :
    satCollide a b = circleCircleCollide ca cb := by
  cases a with
  | circle c0 =>
      simp only [Body.asCircleData, Option.some.injEq] at hca
      subst hca
      cases b with
      | circle d0 =>
          simp only [Body.asCircleData, Option.some.injEq] at hcb
          subst hcb
          rfl
      | point t =>
          simp only [Body.asCircleData, Option.some.injEq] at hcb
          subst hcb
          rfl
      | polygon q => simp [Body.asCircleData] at hcb
  | point s =>
      simp only [Body.asCircleData, Option.some.injEq] at hca
      subst hca
      cases b with
      | circle d0 =>
          simp only [Body.asCircleData, Option.some.injEq] at hcb
          subst hcb
          rfl
      | point t =>
          simp only [Body.asCircleData, Option.some.injEq] at hcb
          subst hcb
          rfl
      | polygon q => simp [Body.asCircleData] at hcb
  | polygon p => simp [Body.asCircleData] at hca

theorem round_boxes_intersect {a b : Body} {ca cb : CircleData}
    (hca : a.asCircleData = some ca) (hcb : b.asCircleData = some cb)
    (hwa : a.wf = true) (hwb : b.wf = true)
    (hcol : circleCircleCollide ca cb = true) :
    (Body.box a).intersects (Body.box b) = true := by
  rw [box_of_asCircleData hca, box_of_asCircleData hcb]
  exact circle_boxes_intersect_of_collide (asCircleData_r_nonneg hca hwa)
    (asCircleData_r_nonneg hcb hwb) (Body.wf_padding hwa) (Body.wf_padding hwb)
    (by simpa [circleCircleCollide, circleDistSq] using hcol)

theorem isRound_asCircleData {a : Body} (h : a.isRound = true) :
    ∃ ca, a.asCircleData = some ca := by
  cases a with
  | circle c => exact ⟨_, rfl⟩
  | point t => exact ⟨_, rfl⟩
  | polygon p => simp [Body.isRound] at h

/-- C2 as amended: the bounding-box pre-check is conservative — whenever
`collides` with the pre-check reports a collision, so does the call without
it (the expensive path and the descriptor it writes do not depend on the
flag) — and for circle and point bodies the two calls agree exactly.  Only
degenerate polygons with no valid candidate axis can make the two calls
differ. -/
theorem c2_precheck_conservative :
    (∀ a b : Body, SATtest a b true = true → SATtest a b false = true) ∧
    (∀ a b : Body, a.isRound = true → b.isRound = true →
      a.wf = true → b.wf = true → SATtest a b true = SATtest a b false) := by
  constructor
  · intro a b h
    simp only [SATtest, Bool.and_eq_true] at h
    simp only [SATtest, Bool.not_false, Bool.true_or, Bool.true_and]
    exact h.2
  · intro a b hra hrb hwa hwb
    obtain ⟨ca, hca⟩ := isRound_asCircleData hra
    obtain ⟨cb, hcb⟩ := isRound_asCircleData hrb
    cases hsat : satCollide a b with
    | false => simp [SATtest, hsat]
    | true =>
        have hcol : circleCircleCollide ca cb = true := by
          rw [← satCollide_round hca hcb]
          exact hsat
        have hint := round_boxes_intersect hca hcb hwa hwb hcol
        simp [SATtest, hsat, hint]

/-- Witness for C2's amended theorem: two overlapping circles collide with
the pre-check enabled, hence also without it. -/
theorem c2_witness :
    SATtest bodyA bodyB true = true ∧ SATtest bodyA bodyB false = true :=
  ⟨by with_unfolding_all decide,
    c2_precheck_conservative.1 bodyA bodyB (by with_unfolding_all decide)⟩

/-! ## Padded bounding box invariant (C8) -/

/-- C8: for every well-formed body (any parameter values, hence after any
transform mutation, construction or reindexing — the box is recomputed
from the current fields), the padded bounding box contains every point
within `padding` (per axis) of the body's true geometric extent; and in
particular a circle's box is center ± (radius·scale + padding) on each
axis. -/
theorem c8_box_superset :
    (∀ b : Body, b.wf = true → ∀ p q : ℚ × ℚ, p ∈ b.extent →
      |q.1 - p.1| ≤ b.paddingOf → |q.2 - p.2| ≤ b.paddingOf →
      q ∈ b.box.toSet) ∧
    (∀ c : Circle, (Body.circle c).box =
      ⟨c.x - (c.radius * c.scale + c.padding),
       c.y - (c.radius * c.scale + c.padding),
       c.x + (c.radius * c.scale + c.padding),
       c.y + (c.radius * c.scale + c.padding)⟩) := by
  constructor
  · intro b hw p q hp h1 h2
    exact AABB.mem_inflate (extent_subset_unpadded b hw hp) h1 h2
  · intro c
    show AABB.inflate ⟨c.x - c.radius * c.scale, c.y - c.radius * c.scale,
      c.x + c.radius * c.scale, c.y + c.radius * c.scale⟩ c.padding = _
    simp only [AABB.inflate, AABB.mk.injEq]
    exact ⟨by ring, by ring, by ring, by ring⟩

/-- Witness for C8 at the unit circle at the origin: the extent point (1,0)
stays inside the padded box. -/
theorem c8_witness :
    Body.wf bodyA = true ∧ ((1 : ℚ), (0 : ℚ)) ∈ (Body.box bodyA).toSet :=
  ⟨by with_unfolding_all decide,
    c8_box_superset.1 bodyA (by with_unfolding_all decide) (1, 0) (1, 0)
      (by simp only [bodyA, Body.extent, Set.mem_setOf_eq]; norm_num)
      (by norm_num [bodyA, Body.paddingOf])
      (by norm_num [bodyA, Body.paddingOf])⟩

/-! ## Touching counts as colliding (C6) -/

theorem circleAxisOverlap_eval {vs : List (ℚ × ℚ)} {c : CircleData} {n : ℚ × ℚ}
    {pmin pmax ctr nsq s : ℚ} (hpr : polyProjRange vs n = (pmin, pmax))
    (hctr : dot n (c.x, c.y) = ctr) (hnsq : normSq n = nsq)
    (hs : 0 ≤ s) (hs2 : s ^ 2 = nsq) :
    circleAxisOverlap vs c n =
      (min ((pmax : ℝ)) ((ctr : ℝ) + (c.r : ℝ) * (s : ℝ)) -
       max ((pmin : ℝ)) ((ctr : ℝ) - (c.r : ℝ) * (s : ℝ))) / (s : ℝ) := by
  have hsq : Real.sqrt ((nsq : ℚ) : ℝ) = (s : ℝ) := by
    rw [← hs2]
    push_cast
    exact Real.sqrt_sq (by exact_mod_cast hs)
  simp only [circleAxisOverlap, hpr, hctr, hnsq, hsq]

theorem circleAxisOverlap_nonneg {vs : List (ℚ × ℚ)} {c : CircleData} {n : ℚ × ℚ}
    (hr : 0 ≤ c.r)
    (h1 : (polyProjRange vs n).1 ≤ (polyProjRange vs n).2)
    (h2 : (polyProjRange vs n).1 ≤ dot n (c.x, c.y))
    (h3 : dot n (c.x, c.y) ≤ (polyProjRange vs n).2) :
    0 ≤ circleAxisOverlap vs c n := by
  simp only [circleAxisOverlap]
  apply div_nonneg _ (Real.sqrt_nonneg _)
  rw [sub_nonneg]
  have hrad : (0 : ℝ) ≤ ((c.r : ℚ) : ℝ) * Real.sqrt ((normSq n : ℚ) : ℝ) :=
    mul_nonneg (by exact_mod_cast hr) (Real.sqrt_nonneg _)
  have hc1 : ((polyProjRange vs n).1 : ℝ) ≤ ((polyProjRange vs n).2 : ℝ) := by
    exact_mod_cast h1
  have hc2 : ((polyProjRange vs n).1 : ℝ) ≤ ((dot n (c.x, c.y) : ℚ) : ℝ) := by
    exact_mod_cast h2
  have hc3 : ((dot n (c.x, c.y) : ℚ) : ℝ) ≤ ((polyProjRange vs n).2 : ℝ) := by
    exact_mod_cast h3
  apply max_le
  · exact le_min hc1 (by linarith)
  · exact le_min (by linarith) (by linarith)

theorem circlePolygonDepth_cons {p : Polygon} {c : CircleData} {n : ℚ × ℚ}
    {ns : List (ℚ × ℚ)} (h : circlePolyAxes p c = n :: ns) :
    circlePolygonDepth p c =
      (ns.map (fun m => circleAxisOverlap p.worldVertices c m)).foldl min
        (circleAxisOverlap p.worldVertices c n) := by
  unfold circlePolygonDepth
  rw [h]
  rw [List.map_cons]

/-- C6: the axis-aligned square [[0,0],[10,0],[10,10],[0,10]] tested
against the circle centered at (15,5) with radius 5 — exactly touching —
reports a collision (with and without the bounding-box pre-check), and the
reported overlap depth is zero. -/
theorem c6_touching_square_circle :
    collides (.polygon squareC6) (.circle circleC6) true = true ∧
    collides (.polygon squareC6) (.circle circleC6) false = true ∧
    circlePolygonDepth squareC6 (circleData circleC6) = 0 := by
  refine ⟨by with_unfolding_all decide, by with_unfolding_all decide, ?_⟩
  have hax : circlePolyAxes squareC6 (circleData circleC6) =
      [(0, -10), (10, 0), (0, 10), (-10, 0), (-5, -5)] := by
    with_unfolding_all decide
  have hr5 : (circleData circleC6).r = 5 := by with_unfolding_all decide
  have hs0 : (0 : ℚ) ≤ 10 := by norm_num
  have hs20 : (10 : ℚ) ^ 2 = 100 := by norm_num
  have e0 : circleAxisOverlap squareC6.worldVertices (circleData circleC6)
      ((0 : ℚ), (-10 : ℚ)) = 10 := by
    have hpr : polyProjRange squareC6.worldVertices ((0 : ℚ), (-10 : ℚ)) =
        (-100, 0) := by with_unfolding_all decide
    have hctr : dot ((0 : ℚ), (-10 : ℚ))
        ((circleData circleC6).x, (circleData circleC6).y) = -50 := by
      with_unfolding_all decide
    have hnsq : normSq ((0 : ℚ), (-10 : ℚ)) = 100 := by with_unfolding_all decide
    rw [circleAxisOverlap_eval hpr hctr hnsq hs0 hs20, hr5]
    push_cast
    norm_num
  have e1 : circleAxisOverlap squareC6.worldVertices (circleData circleC6)
      ((10 : ℚ), (0 : ℚ)) = 0 := by
    have hpr : polyProjRange squareC6.worldVertices ((10 : ℚ), (0 : ℚ)) =
        (0, 100) := by with_unfolding_all decide
    have hctr : dot ((10 : ℚ), (0 : ℚ))
        ((circleData circleC6).x, (circleData circleC6).y) = 150 := by
      with_unfolding_all decide
    have hnsq : normSq ((10 : ℚ), (0 : ℚ)) = 100 := by with_unfolding_all decide
    rw [circleAxisOverlap_eval hpr hctr hnsq hs0 hs20, hr5]
    push_cast
    norm_num
  have e2 : circleAxisOverlap squareC6.worldVertices (circleData circleC6)
      ((0 : ℚ), (10 : ℚ)) = 10 := by
    have hpr : polyProjRange squareC6.worldVertices ((0 : ℚ), (10 : ℚ)) =
        (0, 100) := by with_unfolding_all decide
    have hctr : dot ((0 : ℚ), (10 : ℚ))
        ((circleData circleC6).x, (circleData circleC6).y) = 50 := by
      with_unfolding_all decide
    have hnsq : normSq ((0 : ℚ), (10 : ℚ)) = 100 := by with_unfolding_all decide
    rw [circleAxisOverlap_eval hpr hctr hnsq hs0 hs20, hr5]
    push_cast
    norm_num
  have e3 : circleAxisOverlap squareC6.worldVertices (circleData circleC6)
      ((-10 : ℚ), (0 : ℚ)) = 0 := by
    have hpr : polyProjRange squareC6.worldVertices ((-10 : ℚ), (0 : ℚ)) =
        (-100, 0) := by with_unfolding_all decide
    have hctr : dot ((-10 : ℚ), (0 : ℚ))
        ((circleData circleC6).x, (circleData circleC6).y) = -150 := by
      with_unfolding_all decide
    have hnsq : normSq ((-10 : ℚ), (0 : ℚ)) = 100 := by with_unfolding_all decide
    rw [circleAxisOverlap_eval hpr hctr hnsq hs0 hs20, hr5]
    push_cast
    norm_num
  have e4 : (0 : ℝ) ≤ circleAxisOverlap squareC6.worldVertices
      (circleData circleC6) ((-5 : ℚ), (-5 : ℚ)) := by
    apply circleAxisOverlap_nonneg
    · rw [hr5]; norm_num
    · with_unfolding_all decide
    · with_unfolding_all decide
    · with_unfolding_all decide
  rw [circlePolygonDepth_cons hax]
  simp only [List.map_cons, List.map_nil, List.foldl_cons, List.foldl_nil]
  rw [e0, e1, e2, e3]
  rw [show min (min (min (10 : ℝ) 0) 10) 0 = 0 by norm_num]
  exact min_eq_left e4

end DetectCollisions
